import Mathlib

/-!
Shallow embedding of the `Bucket` class of `src/Bucket.ts` from the
`rivo-gg/cloudflare-r2` repository, together with proofs of the behavioural
properties stated in its specification.

Modelling conventions:
- JavaScript strings are Lean `String`s; JS string primitives used by the
  source (`startsWith`, template concatenation, the regex `^\/+` replace)
  are embedded as explicit Lean functions over `String.data`.
- Values that are `undefined`-able in TypeScript become `Option`.
- A transport interaction is embedded by its observable outcome: either a
  thrown error (carrying its `name` field, the only part the source
  inspects) or the response record the source destructures. Methods are
  then pure functions from that outcome to the returned value, and the
  request a method sends is embedded as a function building the command
  record passed to `r2.send`.
- JS truthiness tests on numbers (`!!x`, `x && ...`, `.length ?`) are
  embedded by their Boolean value on `Option Nat` / `List`.
-/

/-- Model of JS `String.prototype.startsWith` restricted to what the source
uses: `s.startsWith(pre)` holds when the character list of `pre` is a
prefix of that of `s`. -/
def jsStartsWith (s pre : String) : Bool :=
  pre.data.isPrefixOf s.data

/-- JS truthiness of a `number | undefined` value: `undefined` and `0` are
falsy, every other number is truthy. -/
def jsTruthyOptNat : Option Nat → Bool
  | none => false
  | some n => n != 0

/-- JS `v || d` for a `string | undefined` value `v`: the empty string and
`undefined` fall through to the default. -/
def jsOrDefaultString (v : Option String) (d : String) : String :=
  match v with
  | none => d
  | some s => if s == ("") then d else s

/-- A thrown JS error, reduced to the only field the source inspects. -/
structure JsError where
  name : String
deriving DecidableEq

/-- The `$metadata` envelope of an AWS SDK response. -/
structure RespMeta where
  httpStatusCode : Option Nat
deriving DecidableEq

/-- Modelled from the spec: the platform URL parser used by the source as
`new URL(x).origin` is not part of the repository. Per spec section 4.2 the
origin is scheme+host+port with path/query/fragment dropped, and an
unparseable input throws. `findSchemeSplit` locates the first `://`
separator and returns the scheme before it and the remainder after it. -/
def findSchemeSplit : List Char → Option (List Char × List Char)
  | [] => none
  | ':' :: '/' :: '/' :: rest => some ([], rest)
  | c :: rest => (findSchemeSplit rest).map (fun p => (c :: p.1, p.2))

/-- Modelled from the spec: `new URL(url).origin`. Returns `none` (the
parser throws) when there is no `://` separator, an empty scheme, or an
empty host; otherwise keeps scheme and host(+port) and drops everything
from the first `/`, `?` or `#` on. -/
def specUrlOrigin (url : String) : Option String :=
  match findSchemeSplit url.data with
  | none => none
  | some (scheme, rest) =>
    if scheme.isEmpty then none
    else
      let hostport := rest.takeWhile (fun c => !(c == '/' || c == '?' || c == '#'))
      if hostport.isEmpty then none
      else some (String.mk (scheme ++ (':' :: '/' :: '/' :: hostport)))

/-- Client-side state of a `Bucket` instance: the immutable `name` and
`uri` fields and the mutable `bucketPublicUrls` array. -/
structure Bucket where
  name : String
  uri : String
  bucketPublicUrls : List String
deriving DecidableEq

/-- A sample bucket in its freshly constructed state: the source
initialises `bucketPublicUrls` to the empty array. -/
def bucket0 : Bucket :=
  { name := "my-bucket"
  , uri := "https://acct.r2.example/my-bucket"
  , bucketPublicUrls := [] }

/-- `normalizeDestination` from the source: if the destination starts with
`/`, replace the maximal leading run of `/` (the regex `^\/+`) by the empty
string; otherwise return it unchanged. -/
def normalizeDestination (destination : String) : String :=
  if jsStartsWith destination ("/") then
    String.mk (destination.data.dropWhile (fun c => c == '/'))
  else destination

/-- Argument to `provideBucketPublicUrl`: the source accepts a single
string or an array of strings. -/
inductive PublicUrlArg where
  | str (url : String)
  | list (urls : List String)

/-- The single-string branch of `provideBucketPublicUrl`: parse the origin
(throwing on unparseable input, before any mutation), then append it to
`bucketPublicUrls` unless already present. Returns the updated state and
the error, if one was thrown. -/
def provideOneUrl (b : Bucket) (url : String) : Bucket × Option JsError :=
  match specUrlOrigin url with
  | none => (b, some { name := "TypeError" })
  | some origin =>
    if b.bucketPublicUrls.contains origin then (b, none)
    else ({ b with bucketPublicUrls := b.bucketPublicUrls ++ [origin] }, none)

/-- The array branch of `provideBucketPublicUrl`: recurse element-wise; a
thrown error aborts the loop and propagates, keeping the pushes already
performed. -/
def provideManyUrls (b : Bucket) : List String → Bucket × Option JsError
  | [] => (b, none)
  | u :: rest =>
    match provideOneUrl b u with
    | (b2, none) => provideManyUrls b2 rest
    | (b2, some e) => (b2, some e)

/-- `provideBucketPublicUrl` from the source, over both overloads. -/
def provideBucketPublicUrl (b : Bucket) : PublicUrlArg → Bucket × Option JsError
  | .str url => provideOneUrl b url
  | .list urls => provideManyUrls b urls

/-- `getPublicUrls` from the source. -/
def getPublicUrls (b : Bucket) : List String :=
  b.bucketPublicUrls

/-- Deprecated `getPublicUrl` from the source:
`bucketPublicUrls.length ? bucketPublicUrls.at(0) : undefined`. -/
def getPublicUrl (b : Bucket) : Option String :=
  if b.bucketPublicUrls.length != 0 then b.bucketPublicUrls[0]? else none

/-- `getObjectPublicUrls` from the source: map each registered base URL to
the template string `${bucketPublicUrl}/${objectKey}`. -/
def getObjectPublicUrls (b : Bucket) (objectKey : String) : List String :=
  b.bucketPublicUrls.map (fun bucketPublicUrl => bucketPublicUrl ++ "/" ++ objectKey)

/-- `generateObjectPublicUrl` from the source: `null` when no public URL is
registered, else `${bucketPublicUrls.at(0)}/${objectKey}`. -/
def generateObjectPublicUrl (b : Bucket) (objectKey : String) : Option String :=
  if b.bucketPublicUrls.length = 0 then none
  else (b.bucketPublicUrls[0]?).map (fun u => u ++ "/" ++ objectKey)

/-- `generateObjectPublicUrls` from the source. -/
def generateObjectPublicUrls (b : Bucket) (objectKey : String) : List String :=
  if b.bucketPublicUrls.length = 0 then []
  else b.bucketPublicUrls.map (fun u => u ++ "/" ++ objectKey)

/-- The `PutObjectCommand` parameters built by `upload` and the `Upload`
parameters built by `uploadStream` (identical shape; the opaque `Body` is
omitted). -/
structure PutObjectCommand where
  Bucket : String
  Key : String
  ContentType : String
  Metadata : Option (List (String × String))
deriving DecidableEq

/-- The command `upload` sends: key normalized, content type defaulted to
`application/octet-stream`. -/
def uploadCommand (b : Bucket) (destination : String)
    (customMetadata : Option (List (String × String))) (mimeType : Option String) :
    PutObjectCommand :=
  { Bucket := b.name
  , Key := normalizeDestination destination
  , ContentType := jsOrDefaultString mimeType ("application/octet-stream")
  , Metadata := customMetadata }

/-- The multipart `Upload` parameters `uploadStream` builds (same fields as
`uploadCommand`). -/
def uploadStreamCommand (b : Bucket) (destination : String)
    (customMetadata : Option (List (String × String))) (mimeType : Option String) :
    PutObjectCommand :=
  { Bucket := b.name
  , Key := normalizeDestination destination
  , ContentType := jsOrDefaultString mimeType ("application/octet-stream")
  , Metadata := customMetadata }

/-- The `CopyObjectCommand` parameters built by `copyObject`. -/
structure CopyObjectCommand where
  Bucket : String
  CopySource : String
  Key : String
deriving DecidableEq

/-- The command `copyObject` sends: both keys are passed through verbatim,
with no call to `normalizeDestination`. -/
def copyObjectCommand (b : Bucket) (sourceObjectKey destinationObjectKey : String) :
    CopyObjectCommand :=
  { Bucket := b.name
  , CopySource := sourceObjectKey
  , Key := destinationObjectKey }

/-- `exists()` from the source (named `bucketExists` here because `exists`
is reserved in Lean): true exactly when the head-bucket call succeeded with
`$metadata.httpStatusCode === 200`; any thrown error is caught and mapped
to false. -/
def bucketExists (outcome : Except JsError RespMeta) : Bool :=
  match outcome with
  | .error _ => false
  | .ok result => result.httpStatusCode == some 200

/-- The `DeleteObjectCommand` parameters built by `deleteObject`. -/
structure DeleteObjectCommand where
  Bucket : String
  Key : String
deriving DecidableEq

/-- The command `deleteObject` sends. -/
def deleteObjectCommand (b : Bucket) (objectKey : String) : DeleteObjectCommand :=
  { Bucket := b.name, Key := objectKey }

/-- The value `deleteObject` returns, given the transport outcome. The
source computes `status && status >= 200 && status < 300` and does not
catch errors; the JS result is embedded by its truthiness (`undefined` and
`0` are falsy). -/
def deleteObjectResult (outcome : Except JsError RespMeta) : Except JsError Bool :=
  match outcome with
  | .error e => .error e
  | .ok result =>
    .ok (match result.httpStatusCode with
      | none => false
      | some s => s != 0 && decide (200 ≤ s) && decide (s < 300))

/-- Deprecated `deleteFile` from the source: `return this.deleteObject(file)`. -/
def deleteFileCommand (b : Bucket) (file : String) : DeleteObjectCommand :=
  deleteObjectCommand b file

/-- Result of the deprecated `deleteFile`, delegating to `deleteObject`. -/
def deleteFileResult (outcome : Except JsError RespMeta) : Except JsError Bool :=
  deleteObjectResult outcome

/-- The raw `HeadObjectCommand` response fields the source destructures. -/
structure RawHeadResult where
  LastModified : Option Nat
  ContentLength : Option Nat
  AcceptRanges : Option String
  ETag : Option String
  ContentType : Option String
  Metadata : Option (List (String × String))
deriving DecidableEq

/-- The `HeadObjectResponse` shape `headObject` returns. -/
structure HeadObjectResponse where
  lastModified : Option Nat
  contentLength : Option Nat
  acceptRanges : Option String
  etag : Option String
  contentType : Option String
  customMetadata : Option (List (String × String))
deriving DecidableEq

/-- `headObject` from the source: direct field mapping of the raw response;
errors are not caught (they propagate to the caller). -/
def headObject (result : RawHeadResult) : HeadObjectResponse :=
  { lastModified := result.LastModified
  , contentLength := result.ContentLength
  , acceptRanges := result.AcceptRanges
  , etag := result.ETag
  , contentType := result.ContentType
  , customMetadata := result.Metadata }

/-- `objectExists` from the source: `!!(await headObject(key)).contentLength`
inside try/catch, any thrown error mapped to false. -/
def objectExists (outcome : Except JsError RawHeadResult) : Bool :=
  match outcome with
  | .error _ => false
  | .ok result => jsTruthyOptNat (headObject result).contentLength

/-- A tag, per the `Tag` type of `src/types.ts` (a key-value pair). -/
structure Tag where
  key : String
  value : String
deriving DecidableEq

/-- The raw tagging response: the optional `TagSet` field. -/
structure TagResp where
  TagSet : Option (List Tag)
deriving DecidableEq

/-- `getBucketTags` from the source: on success `result.TagSet || []`; a
thrown error named `NoSuchTagSet` is mapped to `[]`; any other error is
re-thrown. -/
def getBucketTags (outcome : Except JsError TagResp) : Except JsError (List Tag) :=
  match outcome with
  | .ok result => .ok (result.TagSet.getD [])
  | .error e => if e.name == ("NoSuchTagSet") then .ok [] else .error e

/-- `getObjectTags` from the source: identical handling to `getBucketTags`
(only the command sent differs). -/
def getObjectTags (outcome : Except JsError TagResp) : Except JsError (List Tag) :=
  match outcome with
  | .ok result => .ok (result.TagSet.getD [])
  | .error e => if e.name == ("NoSuchTagSet") then .ok [] else .error e

/-- A raw CORS rule as destructured by `getCorsPolicies`. -/
structure CORSRule where
  AllowedHeaders : Option (List String)
  AllowedMethods : Option (List String)
  AllowedOrigins : Option (List String)
  ExposeHeaders : Option (List String)
  ID : Option String
  MaxAgeSeconds : Option Nat
deriving DecidableEq

/-- The `CORSPolicy` shape returned by `getCorsPolicies`. -/
structure CORSPolicy where
  allowedHeaders : Option (List String)
  allowedMethods : Option (List String)
  allowedOrigins : Option (List String)
  exposeHeaders : Option (List String)
  id : Option String
  maxAgeSeconds : Option Nat
deriving DecidableEq

/-- The raw get-bucket-cors response: its optional `CORSRules` field. -/
structure CorsResp where
  CORSRules : Option (List CORSRule)
deriving DecidableEq

/-- The per-rule field renaming performed inside `getCorsPolicies`. -/
def corsRuleToPolicy (rule : CORSRule) : CORSPolicy :=
  { allowedHeaders := rule.AllowedHeaders
  , allowedMethods := rule.AllowedMethods
  , allowedOrigins := rule.AllowedOrigins
  , exposeHeaders := rule.ExposeHeaders
  , id := rule.ID
  , maxAgeSeconds := rule.MaxAgeSeconds }

/-- `getCorsPolicies` from the source: `result.CORSRules?.map(...) || []`
inside try/catch, any thrown error mapped to `[]`. -/
def getCorsPolicies (outcome : Except JsError CorsResp) : List CORSPolicy :=
  match outcome with
  | .error _ => []
  | .ok result => (result.CORSRules.map (fun rules => rules.map corsRuleToPolicy)).getD []

/-- Deprecated `getCors` from the source: `return this.getCorsPolicies()`. -/
def getCors (outcome : Except JsError CorsResp) : List CORSPolicy :=
  getCorsPolicies outcome

/-- Running a whole sequence of `provideBucketPublicUrl` calls against a
bucket, keeping the state a caller observes after catching any thrown
errors. -/
def runProvideCalls (b : Bucket) : List PublicUrlArg → Bucket
  | [] => b
  | a :: rest => runProvideCalls (provideBucketPublicUrl b a).1 rest

/-- The origins successfully parsed (and hence pushed, modulo dedup) by the
array branch before its first unparseable element. -/
def originsOfList : List String → List String
  | [] => []
  | u :: rest =>
    match specUrlOrigin u with
    | some o => o :: originsOfList rest
    | none => []

/-- The origins a single `provideBucketPublicUrl` call processes. -/
def originsOfArg : PublicUrlArg → List String
  | .str url => (specUrlOrigin url).toList
  | .list urls => originsOfList urls

/-- The origins a sequence of calls processes, in order. -/
def originsOfCalls (calls : List PublicUrlArg) : List String :=
  (calls.map originsOfArg).flatten

/-- Reference first-occurrence deduplication: append each element to the
accumulator unless already present. -/
def firstOccurrenceDedup (acc : List String) : List String → List String
  | [] => acc
  | o :: rest => firstOccurrenceDedup (if acc.contains o then acc else acc ++ [o]) rest

/-! ## Helper lemmas -/

lemma slash_data : ("/" : String).data = ['/'] := rfl

lemma dropWhile_idem (p : Char → Bool) (l : List Char) :
    (l.dropWhile p).dropWhile p = l.dropWhile p := by
  induction l with
  | nil => rfl
  | cons c t ih =>
    cases h : p c with
    | true => simpa [List.dropWhile, h] using ih
    | false => simp [List.dropWhile, h]

lemma dropWhileSlash_no_leading_slash (l : List Char) :
    List.isPrefixOf ['/'] (l.dropWhile (fun c => c == '/')) = false := by
  induction l with
  | nil => rfl
  | cons c t ih =>
    by_cases hc : c = '/'
    · subst hc
      simpa [List.dropWhile] using ih
    · have hb : (c == '/') = false := by simp [hc]
      simp [List.dropWhile, List.isPrefixOf, hb, hc, Ne.symm hc]

lemma normalizeDestination_data (k : String) :
    (normalizeDestination k).data = k.data.dropWhile (fun c => c == '/') := by
  obtain ⟨l⟩ := k
  cases l with
  | nil => rfl
  | cons c t =>
    by_cases hc : c = '/'
    · subst hc
      simp [normalizeDestination, jsStartsWith, slash_data, List.isPrefixOf,
        List.dropWhile]
    · have hb : (c == '/') = false := by simp [hc]
      simp [normalizeDestination, jsStartsWith, slash_data, List.isPrefixOf,
        List.dropWhile, hb, hc, Ne.symm hc]

lemma normalizeDestination_no_leading_slash (k : String) :
    jsStartsWith (normalizeDestination k) ("/") = false := by
  simp [jsStartsWith, slash_data, normalizeDestination_data,
    dropWhileSlash_no_leading_slash]

lemma normalizeDestination_idem (k : String) :
    normalizeDestination (normalizeDestination k) = normalizeDestination k := by
  have h : (normalizeDestination (normalizeDestination k)).data
      = (normalizeDestination k).data := by
    rw [normalizeDestination_data, normalizeDestination_data, dropWhile_idem]
  cases hn : normalizeDestination (normalizeDestination k) with
  | mk l1 =>
    cases hm : normalizeDestination k with
    | mk l2 =>
      rw [hn, hm] at h
      simp only [] at h
      exact congrArg String.mk h

/-! ## Claim theorems -/

/-- C5: for every key with one or more leading separators,
`normalizeDestination` strips the whole maximal leading run of separators
(so the result has no leading separator), and `normalizeDestination` is
idempotent on every key. -/
theorem claim_C5 :
    (∀ k, jsStartsWith k ("/") = true →
      (normalizeDestination k).data = k.data.dropWhile (fun c => c == '/')
      ∧ jsStartsWith (normalizeDestination k) ("/") = false)
    ∧ (∀ k, normalizeDestination (normalizeDestination k) = normalizeDestination k) := by
  refine ⟨fun k _ => ⟨normalizeDestination_data k, normalizeDestination_no_leading_slash k⟩,
    normalizeDestination_idem⟩

/-- Witness for C5 at the concrete key `//a`. -/
theorem claim_C5_witness :
    jsStartsWith ("//a") ("/") = true
    ∧ (normalizeDestination ("//a")).data = ("//a").data.dropWhile (fun c => c == '/')
    ∧ jsStartsWith (normalizeDestination ("//a")) ("/") = false := by
  refine ⟨by decide, (claim_C5.1 ("//a") (by decide)).1, (claim_C5.1 ("//a") (by decide)).2⟩

/-- C1 (amended): `upload` and `uploadStream` transmit
`normalizeDestination` of their destination argument as the object key, but
`copyObject` transmits its destination key unchanged, with no
normalization. -/
theorem claim_C1 :
    ∀ (b : Bucket) (destination sourceKey : String)
      (customMetadata : Option (List (String × String))) (mimeType : Option String),
    (uploadCommand b destination customMetadata mimeType).Key
        = normalizeDestination destination
    ∧ (uploadStreamCommand b destination customMetadata mimeType).Key
        = normalizeDestination destination
    ∧ (copyObjectCommand b sourceKey destination).Key = destination := by
  intro b d s cm mt
  exact ⟨rfl, rfl, rfl⟩

/-- Counterexample for C1 as stated: for the destination `/a`, which has a
leading separator, `copyObject` sends the key `/a` itself, not the
normalized key `a`. -/
theorem claim_C1_counterexample :
    ¬ ((copyObjectCommand bucket0 ("src.txt") ("/a")).Key
        = normalizeDestination ("/a")) := by
  decide

/-- C6: with zero registered base URLs `getObjectPublicUrls` returns the
empty list; in general it has exactly one entry per registered base URL,
positionally equal to the base URL, `/`, and the key verbatim (the key is
not re-normalized). -/
theorem claim_C6 : ∀ (b : Bucket) (objectKey : String),
    (b.bucketPublicUrls = [] → getObjectPublicUrls b objectKey = [])
    ∧ (getObjectPublicUrls b objectKey).length = b.bucketPublicUrls.length
    ∧ (∀ i : Nat, (getObjectPublicUrls b objectKey)[i]?
        = (b.bucketPublicUrls[i]?).map (fun base => base ++ "/" ++ objectKey)) := by
  intro b k
  refine ⟨fun h => by simp [getObjectPublicUrls, h], by simp [getObjectPublicUrls],
    fun i => by simp [getObjectPublicUrls]⟩

/-- Witness for C6: a freshly constructed bucket has no registered base
URLs and yields the empty list, even for a key with a leading separator. -/
theorem claim_C6_witness : getObjectPublicUrls bucket0 ("/x") = [] :=
  (claim_C6 bucket0 ("/x")).1 rfl

/-- C7: the command `deleteObject` sends carries the given key, and its
returned value is `true` exactly when the response status code exists and
lies in the interval from 200 inclusive to 300 exclusive. -/
theorem claim_C7 : ∀ (b : Bucket) (objectKey : String) (r : RespMeta),
    (deleteObjectCommand b objectKey).Key = objectKey
    ∧ (deleteObjectResult (Except.ok r) = Except.ok true
        ↔ ∃ s, r.httpStatusCode = some s ∧ 200 ≤ s ∧ s < 300) := by
  intro b k r
  refine ⟨rfl, ?_⟩
  cases hr : r.httpStatusCode with
  | none => simp [deleteObjectResult, hr]
  | some s =>
    simp only [deleteObjectResult, hr, Except.ok.injEq, Option.some.injEq,
      Bool.and_eq_true, decide_eq_true_eq, bne_iff_ne, ne_eq]
    constructor
    · rintro ⟨⟨h0, h1⟩, h2⟩
      exact ⟨s, rfl, h1, h2⟩
    · rintro ⟨s2, hs2, h1, h2⟩
      cases hs2
      omega

/-- C9: each deprecated alias agrees with its replacement on every input
and transport outcome: `getCors` with `getCorsPolicies`, `deleteFile` with
`deleteObject` (both the command sent and the value returned), and
`getPublicUrl` with the head of `getPublicUrls`. -/
theorem claim_C9 :
    (∀ outcome, getCors outcome = getCorsPolicies outcome)
    ∧ (∀ (b : Bucket) (file : String) outcome,
        deleteFileCommand b file = deleteObjectCommand b file
        ∧ deleteFileResult outcome = deleteObjectResult outcome)
    ∧ (∀ b : Bucket, getPublicUrl b = (getPublicUrls b).head?) := by
  refine ⟨fun _ => rfl, fun _ _ _ => ⟨rfl, rfl⟩, ?_⟩
  intro b
  cases hb : b.bucketPublicUrls with
  | nil => simp [getPublicUrl, getPublicUrls, hb]
  | cons x xs => simp [getPublicUrl, getPublicUrls, hb]

/-- A sample successful head-bucket response. -/
def resp200 : RespMeta := { httpStatusCode := some 200 }

/-- A sample transport error. -/
def jsErrNetwork : JsError := { name := "NetworkingError" }

/-- A sample non-tagging remote error. -/
def jsErrAccessDenied : JsError := { name := "AccessDenied" }

/-- A sample head-object response for a zero-length object. -/
def rawHeadZero : RawHeadResult :=
  { LastModified := none
  , ContentLength := some 0
  , AcceptRanges := none
  , ETag := none
  , ContentType := none
  , Metadata := none }

/-- C3: `exists()` never throws; every failed head-bucket call yields
`false`, and it yields `true` only when the response carries the explicit
success status 200. -/
theorem claim_C3 : ∀ (outcome : Except JsError RespMeta),
    (∀ e, outcome = Except.error e → bucketExists outcome = false)
    ∧ (bucketExists outcome = true
        → ∃ r, outcome = Except.ok r ∧ r.httpStatusCode = some 200)
    ∧ (∀ r, bucketExists (Except.ok r) = true ↔ r.httpStatusCode = some 200) := by
  intro outcome
  refine ⟨?_, ?_, ?_⟩
  · intro e he
    subst he
    rfl
  · cases outcome with
    | error e => simp [bucketExists]
    | ok r =>
      intro h
      exact ⟨r, rfl, by simpa [bucketExists] using h⟩
  · intro r
    simp [bucketExists]

/-- Witness for C3: a thrown transport error maps to `false`; a response
with status 200 maps to `true`. -/
theorem claim_C3_witness :
    bucketExists (Except.error jsErrNetwork) = false
    ∧ bucketExists (Except.ok resp200) = true := by
  exact ⟨(claim_C3 (Except.error jsErrNetwork)).1 jsErrNetwork rfl,
    ((claim_C3 (Except.ok resp200)).2.2 resp200).mpr rfl⟩

/-- C2: `objectExists` returns `true` exactly when the head-object call
succeeded with a present, non-zero content length; any thrown error maps to
`false`, and a successful response for a zero-length object also maps to
`false`. -/
theorem claim_C2 : ∀ (outcome : Except JsError RawHeadResult),
    (objectExists outcome = true
      ↔ ∃ result n, outcome = Except.ok result
          ∧ result.ContentLength = some n ∧ n ≠ 0)
    ∧ (∀ e, objectExists (Except.error e) = false)
    ∧ (∀ result, result.ContentLength = some 0
        → objectExists (Except.ok result) = false) := by
  intro outcome
  refine ⟨?_, fun e => rfl, ?_⟩
  · cases outcome with
    | error e => simp [objectExists]
    | ok result =>
      cases hcl : result.ContentLength with
      | none => simp [objectExists, headObject, jsTruthyOptNat, hcl]
      | some n => simp [objectExists, headObject, jsTruthyOptNat, hcl]
  · intro result h
    simp [objectExists, headObject, jsTruthyOptNat, h]

/-- Witness for C2: a freshly headed zero-length object is reported as not
existing. -/
theorem claim_C2_witness :
    rawHeadZero.ContentLength = some 0
    ∧ objectExists (Except.ok rawHeadZero) = false :=
  ⟨rfl, (claim_C2 (Except.ok rawHeadZero)).2.2 rawHeadZero rfl⟩

/-- C8: both tagging reads return the remote tag set on success (coalescing
a missing set to the empty list), return the empty list on a failure
exactly when the error is named `NoSuchTagSet`, and re-raise every other
failure unchanged. -/
theorem claim_C8 :
    (∀ r : TagResp, getBucketTags (Except.ok r) = Except.ok (r.TagSet.getD [])
      ∧ getObjectTags (Except.ok r) = Except.ok (r.TagSet.getD []))
    ∧ (∀ e : JsError,
        (getBucketTags (Except.error e) = Except.ok [] ↔ e.name = ("NoSuchTagSet"))
        ∧ (getObjectTags (Except.error e) = Except.ok [] ↔ e.name = ("NoSuchTagSet")))
    ∧ (∀ e : JsError, e.name ≠ ("NoSuchTagSet")
        → getBucketTags (Except.error e) = Except.error e
        ∧ getObjectTags (Except.error e) = Except.error e) := by
  refine ⟨fun r => ⟨rfl, rfl⟩, ?_, ?_⟩
  · intro e
    by_cases he : e.name = ("NoSuchTagSet")
    · constructor <;> simp [getBucketTags, getObjectTags, he]
    · constructor <;> simp [getBucketTags, getObjectTags, he]
  · intro e he
    exact ⟨by simp [getBucketTags, he], by simp [getObjectTags, he]⟩

/-- Witness for C8: an `AccessDenied` failure is re-raised unchanged by
both tagging reads. -/
theorem claim_C8_witness :
    jsErrAccessDenied.name ≠ ("NoSuchTagSet")
    ∧ getBucketTags (Except.error jsErrAccessDenied) = Except.error jsErrAccessDenied
    ∧ getObjectTags (Except.error jsErrAccessDenied) = Except.error jsErrAccessDenied := by
  refine ⟨by decide, (claim_C8.2.2 jsErrAccessDenied (by decide)).1,
    (claim_C8.2.2 jsErrAccessDenied (by decide)).2⟩

/-- C10: in the single-string overload, an unparseable URL makes
`provideBucketPublicUrl` throw (a `TypeError`, thrown by the URL parser
before any mutation) and leaves the public-URL list unchanged. -/
theorem claim_C10 : ∀ (b : Bucket) (url : String), specUrlOrigin url = none →
    provideBucketPublicUrl b (PublicUrlArg.str url)
      = (b, some { name := "TypeError" }) := by
  intro b url h
  simp [provideBucketPublicUrl, provideOneUrl, h]

/-- Witness for C10 at the concrete unparseable input `not a url`. -/
theorem claim_C10_witness :
    specUrlOrigin ("not a url") = none
    ∧ provideBucketPublicUrl bucket0 (PublicUrlArg.str ("not a url"))
        = (bucket0, some { name := "TypeError" }) :=
  ⟨by decide, claim_C10 bucket0 ("not a url") (by decide)⟩

lemma originsOfCalls_cons (a : PublicUrlArg) (rest : List PublicUrlArg) :
    originsOfCalls (a :: rest) = originsOfArg a ++ originsOfCalls rest := by
  simp [originsOfCalls]

lemma firstOccurrenceDedup_append (l1 l2 : List String) : ∀ acc,
    firstOccurrenceDedup acc (l1 ++ l2)
      = firstOccurrenceDedup (firstOccurrenceDedup acc l1) l2 := by
  induction l1 with
  | nil => intro acc; rfl
  | cons o t ih =>
    intro acc
    simp only [List.cons_append, firstOccurrenceDedup]
    exact ih _

lemma firstOccurrenceDedup_cons_of_mem {acc : List String} {o : String}
    (ho : o ∈ acc) (rest : List String) :
    firstOccurrenceDedup acc (o :: rest) = firstOccurrenceDedup acc rest := by
  simp [firstOccurrenceDedup, ho]

lemma firstOccurrenceDedup_cons_of_not_mem {acc : List String} {o : String}
    (ho : o ∉ acc) (rest : List String) :
    firstOccurrenceDedup acc (o :: rest) = firstOccurrenceDedup (acc ++ [o]) rest := by
  simp [firstOccurrenceDedup, ho]

lemma firstOccurrenceDedup_nodup : ∀ (l acc : List String), acc.Nodup →
    (firstOccurrenceDedup acc l).Nodup := by
  intro l
  induction l with
  | nil => intro acc h; exact h
  | cons o t ih =>
    intro acc h
    by_cases ho : o ∈ acc
    · rw [firstOccurrenceDedup_cons_of_mem ho]
      exact ih acc h
    · rw [firstOccurrenceDedup_cons_of_not_mem ho]
      exact ih (acc ++ [o]) (by simp [List.nodup_append, h, ho])

lemma firstOccurrenceDedup_split : ∀ (l acc : List String),
    ∃ t, firstOccurrenceDedup acc l = acc ++ t ∧ t.Sublist l := by
  intro l
  induction l with
  | nil => intro acc; exact ⟨[], by simp [firstOccurrenceDedup], List.Sublist.refl []⟩
  | cons o rest ih =>
    intro acc
    by_cases ho : o ∈ acc
    · obtain ⟨t, ht, hs⟩ := ih acc
      exact ⟨t, by rw [firstOccurrenceDedup_cons_of_mem ho, ht], hs.cons o⟩
    · obtain ⟨t, ht, hs⟩ := ih (acc ++ [o])
      refine ⟨o :: t, ?_, hs.cons₂ o⟩
      rw [firstOccurrenceDedup_cons_of_not_mem ho, ht]
      simp

lemma firstOccurrenceDedup_mem (a : String) : ∀ (l acc : List String),
    a ∈ firstOccurrenceDedup acc l ↔ a ∈ acc ∨ a ∈ l := by
  intro l
  induction l with
  | nil => intro acc; simp [firstOccurrenceDedup]
  | cons o rest ih =>
    intro acc
    by_cases ho : o ∈ acc
    · rw [firstOccurrenceDedup_cons_of_mem ho, ih acc]
      constructor
      · rintro (h | h)
        exacts [Or.inl h, Or.inr (List.mem_cons_of_mem o h)]
      · rintro (h | h)
        · exact Or.inl h
        · rcases List.mem_cons.mp h with h1 | h2
          exacts [Or.inl (h1 ▸ ho), Or.inr h2]
    · rw [firstOccurrenceDedup_cons_of_not_mem ho, ih (acc ++ [o])]
      simp [List.mem_append, List.mem_cons, or_assoc]

lemma provideOneUrl_fst (b : Bucket) (url : String) :
    (provideOneUrl b url).1
      = { b with bucketPublicUrls :=
            firstOccurrenceDedup b.bucketPublicUrls ((specUrlOrigin url).toList) } := by
  cases h : specUrlOrigin url with
  | none => simp [provideOneUrl, h, firstOccurrenceDedup]
  | some o =>
    by_cases ho : o ∈ b.bucketPublicUrls
    · have hc : b.bucketPublicUrls.contains o = true := by simpa using ho
      simp [provideOneUrl, h, hc, firstOccurrenceDedup, ho]
    · have hc : b.bucketPublicUrls.contains o = false := by simpa using ho
      simp [provideOneUrl, h, hc, firstOccurrenceDedup, ho]

lemma provideManyUrls_fst (urls : List String) : ∀ b : Bucket,
    (provideManyUrls b urls).1
      = { b with bucketPublicUrls :=
            firstOccurrenceDedup b.bucketPublicUrls (originsOfList urls) } := by
  induction urls with
  | nil => intro b; rfl
  | cons u rest ih =>
    intro b
    cases h : specUrlOrigin u with
    | none =>
      simp [provideManyUrls, provideOneUrl, h, originsOfList, firstOccurrenceDedup]
    | some o =>
      by_cases ho : o ∈ b.bucketPublicUrls
      · have hc : b.bucketPublicUrls.contains o = true := by simpa using ho
        have step : provideOneUrl b u = (b, none) := by simp [provideOneUrl, h, hc, ho]
        simp only [provideManyUrls, step, ih b, originsOfList, h,
          firstOccurrenceDedup_cons_of_mem ho]
      · have hc : b.bucketPublicUrls.contains o = false := by simpa using ho
        have step : provideOneUrl b u
            = ({ b with bucketPublicUrls := b.bucketPublicUrls ++ [o] }, none) := by
          simp [provideOneUrl, h, hc, ho]
        simp only [provideManyUrls, step,
          ih { b with bucketPublicUrls := b.bucketPublicUrls ++ [o] }, originsOfList, h,
          firstOccurrenceDedup_cons_of_not_mem ho]

lemma runProvideCalls_state (calls : List PublicUrlArg) : ∀ b : Bucket,
    runProvideCalls b calls
      = { b with bucketPublicUrls :=
            firstOccurrenceDedup b.bucketPublicUrls (originsOfCalls calls) } := by
  induction calls with
  | nil => intro b; rfl
  | cons a rest ih =>
    intro b
    cases a with
    | str url =>
      simp only [runProvideCalls, provideBucketPublicUrl, ih, provideOneUrl_fst,
        originsOfCalls_cons, originsOfArg, firstOccurrenceDedup_append]
    | list urls =>
      simp only [runProvideCalls, provideBucketPublicUrl, ih, provideManyUrls_fst,
        originsOfCalls_cons, originsOfArg, firstOccurrenceDedup_append]

/-- C4: over every sequence of `provideBucketPublicUrl` calls (single
strings or lists) against a fresh bucket, `getPublicUrls` has no duplicate
entries; it equals the first-occurrence deduplication of the origins of the
processed inputs (already-present origins are not appended, insertion order
of first occurrences is preserved, as the sublist and membership facts
state); and inputs differing only after their origin register as one entry,
as in the two concrete `cdn.x` registrations. -/
theorem claim_C4 :
    (∀ calls : List PublicUrlArg, (getPublicUrls (runProvideCalls bucket0 calls)).Nodup)
    ∧ (∀ calls : List PublicUrlArg,
        getPublicUrls (runProvideCalls bucket0 calls)
          = firstOccurrenceDedup [] (originsOfCalls calls))
    ∧ (∀ calls : List PublicUrlArg,
        (getPublicUrls (runProvideCalls bucket0 calls)).Sublist (originsOfCalls calls))
    ∧ (∀ (calls : List PublicUrlArg) (o : String),
        o ∈ getPublicUrls (runProvideCalls bucket0 calls) ↔ o ∈ originsOfCalls calls)
    ∧ getPublicUrls (runProvideCalls bucket0
        [PublicUrlArg.str ("https://cdn.x/a"), PublicUrlArg.str ("https://cdn.x/b")])
      = [("https://cdn.x")] := by
  have hstate : ∀ calls : List PublicUrlArg,
      getPublicUrls (runProvideCalls bucket0 calls)
        = firstOccurrenceDedup [] (originsOfCalls calls) := by
    intro calls
    rw [runProvideCalls_state calls bucket0]
    rfl
  refine ⟨?_, hstate, ?_, ?_, ?_⟩
  · intro calls
    rw [hstate calls]
    exact firstOccurrenceDedup_nodup _ [] List.nodup_nil
  · intro calls
    rw [hstate calls]
    obtain ⟨t, ht, hs⟩ := firstOccurrenceDedup_split (originsOfCalls calls) []
    rw [ht]
    simpa using hs
  · intro calls o
    rw [hstate calls, firstOccurrenceDedup_mem]
    simp
  · decide
